import Mathlib

/-!
Shallow embedding of the core of `compare-runners` (`src/compare_runners/jobs.py`
and the `Runner` configuration value of `src/compare_runners/config_parser.py`),
together with proofs about the fetch/merge protocol, the runner matcher and the
duration-statistics aggregation.

Modelling conventions:
* Timezone-aware datetimes are modelled as integers written in decimal notation;
  `datetime.datetime.fromisoformat` becomes a decimal-integer reader.  This
  preserves the total order on timestamps and the parse/print round trip, which
  is all the code uses.
* Python floats are modelled as rationals; `float(...)` applied to a CSV field
  becomes a reader of plain decimal literals (the only shape the program itself
  writes).  Overflow and rounding play no role in any claim considered here.
* `re.fullmatch` is an external library call; it is threaded through the
  definitions as an explicit function parameter `fullmatch`.  A concrete
  instance for metacharacter-free patterns (where a full match is exactly
  string equality) is provided for concrete evaluations.
* Exceptions (`IndexError`, `ValueError`, `RuntimeError`) become `Except`.
* A CSV row is a list of field strings; the store file is a list of rows, and
  at the typed level a list of `JobRecord`.
-/

namespace CompareRunners

/-- One persisted job observation, i.e. one row of the per-project CSV store as
written by `fetch_jobs_data`, with its fields at their parsed types. -/
structure JobRecord where
  created_at : Int
  job_name : String
  status : String
  run_duration : ℚ
  queue_duration : ℚ
  runner_description : String
  runner_ip : String
  runner_type : String
  tags : String
  url : String
  deriving DecidableEq, Repr

/-- The `Runner` dataclass of `config_parser.py`.  Despite the type hints, the
parser stores `None` for absent fields, hence the `Option` types. -/
structure Runner where
  name : String
  matcher_name : Option String
  matcher_from : Option Int
  matcher_to : Option Int
  deriving DecidableEq, Repr

/-- The `JobDurationStats` dataclass of `jobs.py`. -/
structure JobDurationStats where
  runtime_duration_avg : ℚ
  runtime_duration_min : ℚ
  runtime_duration_max : ℚ
  queue_duration_avg : ℚ
  queue_duration_min : ℚ
  queue_duration_max : ℚ
  total_duration_avg : ℚ
  total_duration_min : ℚ
  total_duration_max : ℚ
  no_of_jobs : Nat
  deriving DecidableEq, Repr

/-- Numeric value of a decimal digit character. -/
def digitVal (c : Char) : Nat :=
  if c = '0' then 0 else if c = '1' then 1 else if c = '2' then 2 else if c = '3' then 3
  else if c = '4' then 4 else if c = '5' then 5 else if c = '6' then 6 else if c = '7' then 7
  else if c = '8' then 8 else 9

/-- Value of a list of decimal digit characters, `none` on any non-digit. -/
def digitsVal : List Char → Nat → Option Nat
  | [], acc => some acc
  | c :: cs, acc => if c.isDigit then digitsVal cs (10 * acc + digitVal c) else none

/-- Reads a non-empty all-digit character list as a natural number. -/
def digitsOf (cs : List Char) : Option Nat :=
  if cs.isEmpty then none else digitsVal cs 0

/-- Splits a character list at its first dot, when one is present. -/
def splitDot : List Char → List Char × Option (List Char)
  | [] => ([], none)
  | c :: cs =>
    if c = '.' then ([], some cs)
    else
      let r := splitDot cs
      (c :: r.1, r.2)

/-- Reads an unsigned decimal literal: digits with optional fractional digits. -/
def parseDecimal (cs : List Char) : Option ℚ :=
  match splitDot cs with
  | (w, none) => (digitsOf w).map fun n => (n : ℚ)
  | (w, some f) =>
    match digitsOf w, digitsOf f with
    | some n, some m => some ((n : ℚ) + (m : ℚ) / (10 : ℚ) ^ f.length)
    | _, _ => none

/-- Model of `float(...)` on the plain decimal literals the program reads and
writes: optional leading minus sign, digits, optional fractional digits.
Any other string fails, as `float` raises `ValueError` there. -/
def parseRat (s : String) : Option ℚ :=
  if s.toList.headD ' ' = '-' then (parseDecimal s.toList.tail).map fun q => -q
  else parseDecimal s.toList

/-- Model of `datetime.datetime.fromisoformat` under the timestamps-as-integers
convention: reads an optionally negated decimal integer, failing on anything
else (as `fromisoformat` raises `ValueError` on a malformed string). -/
def parseIso (s : String) : Option Int :=
  if s.toList.headD ' ' = '-' then (digitsOf s.toList.tail).map fun n => -(n : Int)
  else (digitsOf s.toList).map fun n => (n : Int)

/-- Model of `re.fullmatch` restricted to patterns that contain no regex
metacharacter: such a pattern fully matches exactly the strings equal to it. -/
def reFullmatchLiteral (pat s : String) : Bool := pat == s

/-- The name filter of `match_runner`: `if runner.matcher_name and not
re.fullmatch(runner.matcher_name, job_runner_description)`.  Note Python
truthiness: an absent pattern (`None`) and an empty pattern string are both
falsy, so in both cases the name check is skipped. -/
def nameCheckFails (fullmatch : String → String → Bool) (desc : String) :
    Option String → Bool
  | none => false
  | some p => !(p == "") && !(fullmatch p desc)

/-- The lower time filter of `match_runner`: `if runner.matcher_from and
created_at < runner.matcher_from` (datetimes are always truthy in Python). -/
def fromCheckFails (created_at : Int) : Option Int → Bool
  | none => false
  | some f => decide (created_at < f)

/-- The upper time filter of `match_runner`: `if runner.matcher_to and
created_at > runner.matcher_to`. -/
def toCheckFails (created_at : Int) : Option Int → Bool
  | none => false
  | some t => decide (t < created_at)

/-- The matcher predicate of `match_runner` after the creation timestamp has
been parsed; the three filters are checked in source order. -/
def matchRunnerAt (fullmatch : String → String → Bool) (created_at : Int)
    (job_runner_description : String) (runner : Runner) : Bool :=
  if nameCheckFails fullmatch job_runner_description runner.matcher_name then false
  else if fromCheckFails created_at runner.matcher_from then false
  else if toCheckFails created_at runner.matcher_to then false
  else true

/-- Embedding of `match_runner` as written: the name check runs first on the
raw description, and only then is `job_created_at` parsed with
`fromisoformat`, whose failure raises (here: `Except.error`). -/
def match_runner (fullmatch : String → String → Bool) (job_created_at : String)
    (job_runner_description : String) (runner : Runner) : Except String Bool :=
  if nameCheckFails fullmatch job_runner_description runner.matcher_name then .ok false
  else
    match parseIso job_created_at with
    | none => .error "Invalid isoformat string"
    | some created_at =>
      if fromCheckFails created_at runner.matcher_from then .ok false
      else if toCheckFails created_at runner.matcher_to then .ok false
      else .ok true

/-- The accumulator locals of `get_job_stats` before the final averaging. -/
structure StatsAcc where
  total_runtime_duration : ℚ
  total_queue_duration : ℚ
  total_job_duration : ℚ
  runtime_duration_min : ℚ
  runtime_duration_max : ℚ
  queue_duration_min : ℚ
  queue_duration_max : ℚ
  total_duration_min : ℚ
  total_duration_max : ℚ
  no_of_jobs : Nat
  deriving DecidableEq, Repr

/-- The initial values of the accumulator locals in `get_job_stats`; the three
minima start at the sentinel `10000000.0` and the maxima at `0.0`. -/
def initialStats : StatsAcc :=
  { total_runtime_duration := 0
    total_queue_duration := 0
    total_job_duration := 0
    runtime_duration_min := 10000000
    runtime_duration_max := 0
    queue_duration_min := 10000000
    queue_duration_max := 0
    total_duration_min := 10000000
    total_duration_max := 0
    no_of_jobs := 0 }

/-- The body of the accepted-record branch of the `get_job_stats` scan loop. -/
def updateStats (acc : StatsAcc) (job_duration job_queued_duration : ℚ) : StatsAcc :=
  let total_duration := job_duration + job_queued_duration
  { total_runtime_duration := acc.total_runtime_duration + job_duration
    total_queue_duration := acc.total_queue_duration + job_queued_duration
    total_job_duration := acc.total_job_duration + total_duration
    runtime_duration_min :=
      if job_duration < acc.runtime_duration_min then job_duration
      else acc.runtime_duration_min
    runtime_duration_max :=
      if acc.runtime_duration_max < job_duration then job_duration
      else acc.runtime_duration_max
    queue_duration_min :=
      if job_queued_duration < acc.queue_duration_min then job_queued_duration
      else acc.queue_duration_min
    queue_duration_max :=
      if acc.queue_duration_max < job_queued_duration then job_queued_duration
      else acc.queue_duration_max
    total_duration_min :=
      if total_duration < acc.total_duration_min then total_duration
      else acc.total_duration_min
    total_duration_max :=
      if acc.total_duration_max < total_duration then total_duration
      else acc.total_duration_max
    no_of_jobs := acc.no_of_jobs + 1 }

/-- The tail of `get_job_stats`: when no job was accepted the three minima and
the three averages are reset to `0.0` (the maxima are left as accumulated);
otherwise each average is the accumulated sum divided by the job count. -/
def finalizeStats (acc : StatsAcc) : JobDurationStats :=
  if acc.no_of_jobs = 0 then
    { runtime_duration_avg := 0
      runtime_duration_min := 0
      runtime_duration_max := acc.runtime_duration_max
      queue_duration_avg := 0
      queue_duration_min := 0
      queue_duration_max := acc.queue_duration_max
      total_duration_avg := 0
      total_duration_min := 0
      total_duration_max := acc.total_duration_max
      no_of_jobs := acc.no_of_jobs }
  else
    { runtime_duration_avg := acc.total_runtime_duration / (acc.no_of_jobs : ℚ)
      runtime_duration_min := acc.runtime_duration_min
      runtime_duration_max := acc.runtime_duration_max
      queue_duration_avg := acc.total_queue_duration / (acc.no_of_jobs : ℚ)
      queue_duration_min := acc.queue_duration_min
      queue_duration_max := acc.queue_duration_max
      total_duration_avg := acc.total_job_duration / (acc.no_of_jobs : ℚ)
      total_duration_min := acc.total_duration_min
      total_duration_max := acc.total_duration_max
      no_of_jobs := acc.no_of_jobs }

/-- One iteration of the `get_job_stats` scan loop at the typed-record level:
skip records of other jobs, and accumulate the record when the matcher
accepts it. -/
def statsStep (fullmatch : String → String → Bool) (job_name : String)
    (runner : Runner) (acc : StatsAcc) (r : JobRecord) : StatsAcc :=
  if r.job_name ≠ job_name then acc
  else if matchRunnerAt fullmatch r.created_at r.runner_description runner then
    updateStats acc r.run_duration r.queue_duration
  else acc

/-- Embedding of `get_job_stats` over an already-parsed store: fold the scan
loop over the records and finalize.  The on-disk CSV layer is treated
separately by `get_job_stats_rows`. -/
def get_job_stats (fullmatch : String → String → Bool) (job_name : String)
    (runner : Runner) (records : List JobRecord) : JobDurationStats :=
  finalizeStats (records.foldl (statsStep fullmatch job_name runner) initialStats)

/-- The records of a store that `get_job_stats` accumulates for a given job
name and matcher. -/
def acceptedRecords (fullmatch : String → String → Bool) (job_name : String)
    (runner : Runner) (records : List JobRecord) : List JobRecord :=
  records.filter fun r =>
    r.job_name == job_name && matchRunnerAt fullmatch r.created_at r.runner_description runner

/-- The scan loop of `get_job_stats` at the CSV-row level, exceptions and all:
each row is unpacked (indices 0–7, raising `IndexError` when the row is too
short) and its two duration fields are converted with `float` (raising
`ValueError` when non-numeric) before the job-name filter; for rows of the
requested job, `match_runner` parses the timestamp and may itself raise. -/
def scanRows (fullmatch : String → String → Bool) (job_name : String)
    (runner : Runner) : List (List String) → StatsAcc → Except String StatsAcc
  | [], acc => .ok acc
  | row :: rest, acc =>
    if row.length < 8 then .error "list index out of range"
    else
      match parseRat (row.getD 3 "") with
      | none => .error "could not convert string to float"
      | some job_duration =>
        match parseRat (row.getD 4 "") with
        | none => .error "could not convert string to float"
        | some job_queued_duration =>
          if row.getD 1 "" ≠ job_name then scanRows fullmatch job_name runner rest acc
          else
            match match_runner fullmatch (row.getD 0 "") (row.getD 5 "") runner with
            | .error e => .error e
            | .ok true =>
              scanRows fullmatch job_name runner rest
                (updateStats acc job_duration job_queued_duration)
            | .ok false => scanRows fullmatch job_name runner rest acc

/-- Embedding of `get_job_stats` over the raw CSV rows of an existing store
file: scan every row, then finalize.  An exception anywhere aborts the whole
call (there is no per-row recovery in the source). -/
def get_job_stats_rows (fullmatch : String → String → Bool) (job_name : String)
    (runner : Runner) (rows : List (List String)) : Except String JobDurationStats :=
  (scanRows fullmatch job_name runner rows initialStats).map finalizeStats

/-- The row loop of `get_measured_jobs`: `row[1]` raises `IndexError` on a row
with fewer than two fields; otherwise the name is added to the set, modelled
as insertion without duplication. -/
def collectJobNames : List (List String) → List String → Except String (List String)
  | [], acc => .ok acc
  | row :: rest, acc =>
    if row.length < 2 then .error "list index out of range"
    else
      let n := row.getD 1 ""
      collectJobNames rest (if n ∈ acc then acc else acc ++ [n])

/-- Embedding of `get_measured_jobs`: the distinct job names of the store's
rows, sorted (Python `sorted` on strings is lexicographic). -/
def get_measured_jobs (rows : List (List String)) : Except String (List String) :=
  (collectJobNames rows []).map fun names => names.mergeSort fun a b => !decide (b < a)

/-- The runner metadata of a remote job entity; `job.runner` is `None` for
jobs that never got a runner, and the `.get` accesses default missing keys
to the empty string. -/
structure RunnerInfo where
  description : String
  ip_address : String
  runner_type : String
  deriving DecidableEq, Repr

/-- A job entity as returned by the remote jobs listing (successful jobs
only, thanks to the `scope=["success"]` server-side filter). -/
structure RemoteJob where
  created_at : Int
  name : String
  status : String
  duration : ℚ
  queued_duration : ℚ
  runner : Option RunnerInfo
  tag_list : List String
  web_url : String
  deriving DecidableEq, Repr

/-- The row written for one remote job by `fetch_jobs_data`, at the typed
level.  When `job.runner` is `None`, `job.runner.get(...)` raises
`AttributeError`, which the source catches and turns into skipping the job
with a warning: hence `none` here. -/
def recordOfJob (job : RemoteJob) : Option JobRecord :=
  match job.runner with
  | none => none
  | some info =>
    some { created_at := job.created_at
           job_name := job.name
           status := job.status
           run_duration := job.duration
           queue_duration := job.queued_duration
           runner_description := info.description
           runner_ip := info.ip_address
           runner_type := info.runner_type
           tags := String.intercalate "," job.tag_list
           url := job.web_url }

/-- The `latest_data_cutoff` dedup test of the fetch loop: datetimes are
always truthy, so the test fires exactly when a latest timestamp exists and
the job is not strictly newer than it. -/
def latestHit (latest_data_cutoff : Option Int) (created : Int) : Bool :=
  latest_data_cutoff.elim false fun l => decide (created ≤ l)

/-- The inner per-page loop of `fetch_jobs_data`: scan the page in order;
stop the whole fetch at the first job older than the cutoff date or not
newer than the newest already-stored timestamp; otherwise write the job's
row (unless its runner metadata is missing).  Returns the rows written from
this page and the `hit_cutoff` flag. -/
def scanPage (cutoff_date : Int) (latest_data_cutoff : Option Int) :
    List RemoteJob → List JobRecord × Bool
  | [] => ([], false)
  | job :: rest =>
    if job.created_at < cutoff_date then ([], true)
    else if latestHit latest_data_cutoff job.created_at then ([], true)
    else
      match recordOfJob job with
      | some r =>
        let s := scanPage cutoff_date latest_data_cutoff rest
        (r :: s.1, s.2)
      | none => scanPage cutoff_date latest_data_cutoff rest

/-- The paginated fetch loop of `fetch_jobs_data`: pages are consumed in
order; an empty page ends the fetch, and a page that trips `hit_cutoff`
keeps its rows written so far and ends the fetch. -/
def fetch_pages (cutoff_date : Int) (latest_data_cutoff : Option Int) :
    List (List RemoteJob) → List JobRecord
  | [] => []
  | batch :: rest =>
    if batch.isEmpty then []
    else
      let s := scanPage cutoff_date latest_data_cutoff batch
      if s.2 then s.1 else s.1 ++ fetch_pages cutoff_date latest_data_cutoff rest

/-- The `latest_data_cutoff` read at the start of `fetch_jobs_data`: the
`created_at` of the first stored row, or `None` for an empty or absent
store. -/
def latestKnown (store : List JobRecord) : Option Int :=
  store.head?.map (·.created_at)

/-- Embedding of `fetch_jobs_data` at the record level, for a given remote
page sequence: the new rows are written first into the temporary file, the
entire previous store content is appended verbatim, and the result is
renamed over the store. -/
def fetch_jobs_data (cutoff_date : Int) (pages : List (List RemoteJob))
    (store : List JobRecord) : List JobRecord :=
  fetch_pages cutoff_date (latestKnown store) pages ++ store

/-- A store is ordered when its records are non-increasing by `created_at`
(newest first). -/
def storeOrdered (store : List JobRecord) : Prop :=
  store.Pairwise fun a b => b.created_at ≤ a.created_at

/-- The continue condition of the fetch scan: the job is neither older than
the cutoff date nor already covered by the stored history. -/
def passes (cutoff_date : Int) (latest_data_cutoff : Option Int) (job : RemoteJob) : Bool :=
  !decide (job.created_at < cutoff_date) && !latestHit latest_data_cutoff job.created_at

/-- The accumulation of `get_job_stats` restricted to the records it accepts:
fold `updateStats` over their two duration fields. -/
def durFold (records : List JobRecord) (acc : StatsAcc) : StatsAcc :=
  records.foldl (fun a r => updateStats a r.run_duration r.queue_duration) acc

/-- A store row on which the row-unpacking prologue of `get_job_stats` raises:
too few columns for the `row[0]`–`row[7]` accesses, or a duration field that
`float` cannot convert. -/
def malformedRow (row : List String) : Prop :=
  row.length < 8 ∨ parseRat (row.getD 3 "") = none ∨ parseRat (row.getD 4 "") = none

/-- A store row the row-unpacking prologue and the matcher's timestamp parse
both get through. -/
def wellFormedRow (row : List String) : Prop :=
  8 ≤ row.length ∧ (parseRat (row.getD 3 "")).isSome ∧ (parseRat (row.getD 4 "")).isSome ∧
    (parseIso (row.getD 0 "")).isSome

instance wellFormedRowDecidable (row : List String) : Decidable (wellFormedRow row) := by
  unfold wellFormedRow
  infer_instance

/-- The matcher acceptance predicate exactly as the specification words it:
`name_pattern` unset or fully matching, and `from`/`to` unset or satisfied as
inclusive bounds.  Stated from the spec, for comparison against the source's
`match_runner`. -/
def matcherAcceptsSpec (fullmatch : String → String → Bool) (created_at : Int)
    (desc : String) (r : Runner) : Prop :=
  (∀ p, r.matcher_name = some p → fullmatch p desc = true) ∧
  (∀ f, r.matcher_from = some f → f ≤ created_at) ∧
  (∀ t, r.matcher_to = some t → created_at ≤ t)

/-- A matcher with every filter unset: it accepts every record. -/
def allRunner : Runner :=
  { name := "any", matcher_name := none, matcher_from := none, matcher_to := none }

/-- A matcher whose name pattern is present but is the empty string. -/
def emptyPatRunner : Runner :=
  { name := "r", matcher_name := some "", matcher_from := none, matcher_to := none }

/-- The crafted three-record store of the aggregation-correctness property:
job `build` with (run, queue) durations (10, 2), (20, 3), (30, 1). -/
def c4rows : List (List String) :=
  [ ["300", "build", "success", "10", "2", "d1", "ip", "ty", "", "u"]
  , ["200", "build", "success", "20", "3", "d2", "ip", "ty", "", "u"]
  , ["100", "build", "success", "30", "1", "d3", "ip", "ty", "", "u"] ]

/-- A store whose second row has a non-numeric `run_duration` field. -/
def badRows : List (List String) :=
  [ ["300", "build", "success", "10", "2", "d1", "ip", "ty", "", "u"]
  , ["200", "build", "success", "xx", "2", "d1", "ip", "ty", "", "u"] ]

/-- A record whose run duration exceeds the `10000000.0` sentinel that
`get_job_stats` uses to initialize its running minima. -/
def bigRec : JobRecord :=
  { created_at := 100, job_name := "build", status := "success", run_duration := 20000000,
    queue_duration := 0, runner_description := "d", runner_ip := "", runner_type := "",
    tags := "", url := "" }

/-- A remote successful job with no runner metadata (`job.runner` is `None`). -/
def noRunnerJob : RemoteJob :=
  { created_at := 5, name := "build", status := "success", duration := 7,
    queued_duration := 1, runner := none, tag_list := [], web_url := "u" }

/-- A remote successful job carrying runner metadata. -/
def goodJob : RemoteJob :=
  { created_at := 20, name := "build", status := "success", duration := 7,
    queued_duration := 1, runner := some ⟨"d", "i", "t"⟩, tag_list := ["a"],
    web_url := "u" }

/-- The store row `fetch_jobs_data` writes for `goodJob`. -/
def goodRec : JobRecord :=
  { created_at := 20, job_name := "build", status := "success", run_duration := 7,
    queue_duration := 1, runner_description := "d", runner_ip := "i", runner_type := "t",
    tags := "a", url := "u" }

/-- An already-stored record older than `goodJob`. -/
def oldRec : JobRecord :=
  { created_at := 10, job_name := "build", status := "success", run_duration := 3,
    queue_duration := 1, runner_description := "d", runner_ip := "i", runner_type := "t",
    tags := "a", url := "u" }

/-- A remote successful job not newer than `oldRec`. -/
def oldJob : RemoteJob :=
  { created_at := 9, name := "build", status := "success", duration := 2,
    queued_duration := 1, runner := some ⟨"d", "i", "t"⟩, tag_list := [],
    web_url := "u" }

theorem passes_iff {c : Int} {l : Option Int} {j : RemoteJob} :
    passes c l j = true ↔ c ≤ j.created_at ∧ ∀ L, l = some L → L < j.created_at := by
  cases l <;> simp [passes, latestHit, not_lt, not_le]

theorem passes_mono {c : Int} {l : Option Int} {j k : RemoteJob}
    (hj : passes c l j = true) (hle : j.created_at ≤ k.created_at) : passes c l k = true := by
  rcases passes_iff.1 hj with ⟨h1, h2⟩
  refine passes_iff.2 ⟨le_trans h1 hle, fun L hL => lt_of_lt_of_le (h2 L hL) hle⟩

theorem recordOfJob_created {j : RemoteJob} {r : JobRecord} (h : recordOfJob j = some r) :
    r.created_at = j.created_at := by
  unfold recordOfJob at h
  cases hj : j.runner with
  | none => rw [hj] at h; cases h
  | some info => rw [hj] at h; cases h; rfl

theorem scanPage_eq (c : Int) (l : Option Int) (batch : List RemoteJob) :
    scanPage c l batch =
      ((batch.takeWhile (passes c l)).filterMap recordOfJob, !batch.all (passes c l)) := by
  induction batch with
  | nil => rfl
  | cons job rest ih =>
    by_cases h1 : job.created_at < c
    · have hp : passes c l job = false := by
        simp [passes, h1]
      simp [scanPage, h1, List.takeWhile_cons, hp]
    · by_cases h2 : latestHit l job.created_at = true
      · have hp : passes c l job = false := by
          simp [passes, h2]
        simp [scanPage, h1, h2, List.takeWhile_cons, hp]
      · have hp : passes c l job = true := by
          simp [passes, h1, h2]
        have hlh : latestHit l job.created_at = false := by
          simpa using h2
        cases hr : recordOfJob job with
        | none => simp [scanPage, h1, hlh, hr, ih, List.takeWhile_cons, hp, List.filterMap_cons]
        | some r => simp [scanPage, h1, hlh, hr, ih, List.takeWhile_cons, hp, List.filterMap_cons]

theorem fetch_pages_sublist (c : Int) (l : Option Int) (pages : List (List RemoteJob)) :
    List.Sublist (fetch_pages c l pages) (pages.flatten.filterMap recordOfJob) := by
  induction pages with
  | nil => simp [fetch_pages]
  | cons batch rest ih =>
    by_cases hb : batch.isEmpty
    · simp [fetch_pages, hb]
    · have hscan : List.Sublist (scanPage c l batch).1 (batch.filterMap recordOfJob) := by
        rw [scanPage_eq]
        exact (List.takeWhile_sublist _).filterMap recordOfJob
      have hflat : ((batch :: rest).flatten).filterMap recordOfJob
          = batch.filterMap recordOfJob ++ (rest.flatten).filterMap recordOfJob := by
        simp [List.filterMap_append]
      by_cases hhit : (scanPage c l batch).2
      · rw [show fetch_pages c l (batch :: rest) = (scanPage c l batch).1 by
          simp [fetch_pages, hb, hhit], hflat]
        exact hscan.trans (List.sublist_append_left _ _)
      · rw [show fetch_pages c l (batch :: rest)
            = (scanPage c l batch).1 ++ fetch_pages c l rest by
          simp [fetch_pages, hb, hhit], hflat]
        exact hscan.append ih

theorem fetch_pages_sound {c : Int} {l : Option Int} {pages : List (List RemoteJob)}
    {r : JobRecord} (hr : r ∈ fetch_pages c l pages) :
    ∃ j, j ∈ pages.flatten ∧ recordOfJob j = some r ∧ passes c l j = true := by
  induction pages with
  | nil => simp [fetch_pages] at hr
  | cons batch rest ih =>
    by_cases hb : batch.isEmpty
    · simp [fetch_pages, hb] at hr
    · have hscan : r ∈ (scanPage c l batch).1 →
          ∃ j, j ∈ batch ∧ recordOfJob j = some r ∧ passes c l j = true := by
        rw [scanPage_eq]
        intro hmem
        rcases List.mem_filterMap.1 hmem with ⟨j, hj, hjr⟩
        exact ⟨j, (List.takeWhile_sublist _).subset hj, hjr, List.mem_takeWhile_imp hj⟩
      by_cases hhit : (scanPage c l batch).2
      · rw [show fetch_pages c l (batch :: rest) = (scanPage c l batch).1 by
          simp [fetch_pages, hb, hhit]] at hr
        rcases hscan hr with ⟨j, hj, hjr, hjp⟩
        exact ⟨j, by simp [List.mem_flatten]; exact Or.inl hj, hjr, hjp⟩
      · rw [show fetch_pages c l (batch :: rest) = (scanPage c l batch).1 ++ fetch_pages c l rest by
          simp [fetch_pages, hb, hhit]] at hr
        rcases List.mem_append.1 hr with hmem | hmem
        · rcases hscan hmem with ⟨j, hj, hjr, hjp⟩
          exact ⟨j, by simp [List.mem_flatten]; exact Or.inl hj, hjr, hjp⟩
        · rcases ih hmem with ⟨j, hj, hjr, hjp⟩
          refine ⟨j, ?_, hjr, hjp⟩
          simp only [List.flatten_cons, List.mem_append]
          exact Or.inr hj

theorem mem_takeWhile_passes {c : Int} {l : Option Int} {j : RemoteJob} :
    ∀ {batch : List RemoteJob},
      batch.Pairwise (fun a b => b.created_at < a.created_at) →
      j ∈ batch → passes c l j = true → j ∈ batch.takeWhile (passes c l)
  | [], _, hj, _ => by cases hj
  | k :: ks, hpw, hj, hp => by
    rcases List.mem_cons.1 hj with rfl | hj
    · rw [List.takeWhile_cons_of_pos hp]
      exact List.mem_cons_self _ _
    · have hk : passes c l k = true :=
        passes_mono hp (le_of_lt ((List.pairwise_cons.1 hpw).1 j hj))
      rw [List.takeWhile_cons_of_pos hk]
      exact List.mem_cons_of_mem _
        (mem_takeWhile_passes (List.pairwise_cons.1 hpw).2 hj hp)

theorem fetch_pages_complete {c : Int} {l : Option Int} :
    ∀ {pages : List (List RemoteJob)},
      pages.flatten.Pairwise (fun a b => b.created_at < a.created_at) →
      pages.Pairwise (fun a b => a = [] → b = []) →
      ∀ {j : RemoteJob} {rec : JobRecord}, j ∈ pages.flatten → recordOfJob j = some rec →
        passes c l j = true → rec ∈ fetch_pages c l pages
  | [], _, _, _, _, hj, _, _ => by simp at hj
  | batch :: rest, hdesc, hemp, j, rec, hj, hrec, hpass => by
    rcases List.pairwise_cons.1 hemp with ⟨hempHead, hempTail⟩
    by_cases hb : batch.isEmpty
    · exfalso
      have hbnil : batch = [] := by simpa [List.isEmpty_iff] using hb
      have hrestnil : rest.flatten = [] := by
        rw [List.flatten_eq_nil_iff]
        intro lpage hlp
        exact hempHead lpage hlp hbnil
      rw [List.flatten_cons, hbnil, hrestnil] at hj
      simp at hj
    · rw [List.flatten_cons] at hj hdesc
      rcases List.pairwise_append.1 hdesc with ⟨hdBatch, hdRest, hdCross⟩
      rcases List.mem_append.1 hj with hjb | hjr
      · have hmem : rec ∈ (scanPage c l batch).1 := by
          rw [scanPage_eq]
          exact List.mem_filterMap.2 ⟨j, mem_takeWhile_passes hdBatch hjb hpass, hrec⟩
        by_cases hhit : (scanPage c l batch).2
        · rw [show fetch_pages c l (batch :: rest) = (scanPage c l batch).1 by
            simp [fetch_pages, hb, hhit]]
          exact hmem
        · rw [show fetch_pages c l (batch :: rest)
                = (scanPage c l batch).1 ++ fetch_pages c l rest by
            simp [fetch_pages, hb, hhit]]
          exact List.mem_append_left _ hmem
      · have hallpass : batch.all (passes c l) = true := by
          rw [List.all_eq_true]
          intro k hk
          exact passes_mono hpass (le_of_lt (hdCross k hk j hjr))
        have hhit : (scanPage c l batch).2 = false := by
          rw [scanPage_eq, hallpass]
          rfl
        rw [show fetch_pages c l (batch :: rest)
              = (scanPage c l batch).1 ++ fetch_pages c l rest by
          simp [fetch_pages, hb, hhit]]
        exact List.mem_append_right _
          (fetch_pages_complete hdRest hempTail hjr hrec hpass)

theorem ordered_le_head {first : JobRecord} {rest : List JobRecord}
    (hs : storeOrdered (first :: rest)) {s : JobRecord} (hmem : s ∈ first :: rest) :
    s.created_at ≤ first.created_at := by
  rcases List.mem_cons.1 hmem with rfl | hmem
  · exact le_refl _
  · exact (List.pairwise_cons.1 hs).1 s hmem

theorem update_min_eq (m d : ℚ) : (if d < m then d else m) = min m d := by
  split_ifs with h
  · exact (min_eq_right h.le).symm
  · exact (min_eq_left (not_lt.1 h)).symm

theorem update_max_eq (M d : ℚ) : (if M < d then d else M) = max M d := by
  split_ifs with h
  · exact (max_eq_right h.le).symm
  · exact (max_eq_left (not_lt.1 h)).symm

theorem foldl_min_init (l : List ℚ) : ∀ a x : ℚ, l.foldl min (min a x) = min a (l.foldl min x) := by
  induction l with
  | nil => intro a x; rfl
  | cons y l ih =>
    intro a x
    show l.foldl min (min (min a x) y) = min a (l.foldl min (min x y))
    rw [min_assoc, ih]

theorem foldl_max_init (l : List ℚ) : ∀ a x : ℚ, l.foldl max (max a x) = max a (l.foldl max x) := by
  induction l with
  | nil => intro a x; rfl
  | cons y l ih =>
    intro a x
    show l.foldl max (max (max a x) y) = max a (l.foldl max (max x y))
    rw [max_assoc, ih]

theorem foldl_statsStep_eq (fullmatch : String → String → Bool) (job_name : String)
    (runner : Runner) :
    ∀ (records : List JobRecord) (acc : StatsAcc),
      records.foldl (statsStep fullmatch job_name runner) acc
        = durFold (acceptedRecords fullmatch job_name runner records) acc := by
  intro records
  induction records with
  | nil => intro acc; rfl
  | cons r rs ih =>
    intro acc
    by_cases hn : r.job_name = job_name
    · by_cases hm : matchRunnerAt fullmatch r.created_at r.runner_description runner = true
      · simp [statsStep, acceptedRecords, List.filter_cons, hn, hm, durFold] at ih ⊢
        exact ih _
      · simp [statsStep, acceptedRecords, List.filter_cons, hn, hm, durFold] at ih ⊢
        exact ih _
    · simp [statsStep, acceptedRecords, List.filter_cons, hn, durFold] at ih ⊢
      exact ih _

theorem durFold_count (l : List JobRecord) :
    ∀ acc : StatsAcc, (durFold l acc).no_of_jobs = acc.no_of_jobs + l.length := by
  induction l with
  | nil => intro acc; rfl
  | cons r rs ih =>
    intro acc
    show (durFold rs (updateStats acc r.run_duration r.queue_duration)).no_of_jobs = _
    rw [ih]
    simp [updateStats]
    omega

theorem durFold_run_sum (l : List JobRecord) :
    ∀ acc : StatsAcc, (durFold l acc).total_runtime_duration
      = acc.total_runtime_duration + (l.map JobRecord.run_duration).sum := by
  induction l with
  | nil => intro acc; simp [durFold]
  | cons r rs ih =>
    intro acc
    show (durFold rs (updateStats acc r.run_duration r.queue_duration)).total_runtime_duration = _
    rw [ih]
    simp [updateStats]
    ring

theorem durFold_queue_sum (l : List JobRecord) :
    ∀ acc : StatsAcc, (durFold l acc).total_queue_duration
      = acc.total_queue_duration + (l.map JobRecord.queue_duration).sum := by
  induction l with
  | nil => intro acc; simp [durFold]
  | cons r rs ih =>
    intro acc
    show (durFold rs (updateStats acc r.run_duration r.queue_duration)).total_queue_duration = _
    rw [ih]
    simp [updateStats]
    ring

theorem durFold_total_sum (l : List JobRecord) :
    ∀ acc : StatsAcc, (durFold l acc).total_job_duration
      = acc.total_job_duration + (l.map fun r => r.run_duration + r.queue_duration).sum := by
  induction l with
  | nil => intro acc; simp [durFold]
  | cons r rs ih =>
    intro acc
    show (durFold rs (updateStats acc r.run_duration r.queue_duration)).total_job_duration = _
    rw [ih]
    simp [updateStats]
    ring

theorem durFold_run_min (l : List JobRecord) :
    ∀ acc : StatsAcc, (durFold l acc).runtime_duration_min
      = (l.map JobRecord.run_duration).foldl min acc.runtime_duration_min := by
  induction l with
  | nil => intro acc; rfl
  | cons r rs ih =>
    intro acc
    show (durFold rs (updateStats acc r.run_duration r.queue_duration)).runtime_duration_min = _
    rw [ih]
    simp only [updateStats, List.map_cons, List.foldl_cons, update_min_eq]

theorem durFold_run_max (l : List JobRecord) :
    ∀ acc : StatsAcc, (durFold l acc).runtime_duration_max
      = (l.map JobRecord.run_duration).foldl max acc.runtime_duration_max := by
  induction l with
  | nil => intro acc; rfl
  | cons r rs ih =>
    intro acc
    show (durFold rs (updateStats acc r.run_duration r.queue_duration)).runtime_duration_max = _
    rw [ih]
    simp only [updateStats, List.map_cons, List.foldl_cons, update_max_eq]

theorem durFold_queue_min (l : List JobRecord) :
    ∀ acc : StatsAcc, (durFold l acc).queue_duration_min
      = (l.map JobRecord.queue_duration).foldl min acc.queue_duration_min := by
  induction l with
  | nil => intro acc; rfl
  | cons r rs ih =>
    intro acc
    show (durFold rs (updateStats acc r.run_duration r.queue_duration)).queue_duration_min = _
    rw [ih]
    simp only [updateStats, List.map_cons, List.foldl_cons, update_min_eq]

theorem durFold_queue_max (l : List JobRecord) :
    ∀ acc : StatsAcc, (durFold l acc).queue_duration_max
      = (l.map JobRecord.queue_duration).foldl max acc.queue_duration_max := by
  induction l with
  | nil => intro acc; rfl
  | cons r rs ih =>
    intro acc
    show (durFold rs (updateStats acc r.run_duration r.queue_duration)).queue_duration_max = _
    rw [ih]
    simp only [updateStats, List.map_cons, List.foldl_cons, update_max_eq]

theorem durFold_totdur_min (l : List JobRecord) :
    ∀ acc : StatsAcc, (durFold l acc).total_duration_min
      = (l.map fun r => r.run_duration + r.queue_duration).foldl min acc.total_duration_min := by
  induction l with
  | nil => intro acc; rfl
  | cons r rs ih =>
    intro acc
    show (durFold rs (updateStats acc r.run_duration r.queue_duration)).total_duration_min = _
    rw [ih]
    simp only [updateStats, List.map_cons, List.foldl_cons, update_min_eq]

theorem durFold_totdur_max (l : List JobRecord) :
    ∀ acc : StatsAcc, (durFold l acc).total_duration_max
      = (l.map fun r => r.run_duration + r.queue_duration).foldl max acc.total_duration_max := by
  induction l with
  | nil => intro acc; rfl
  | cons r rs ih =>
    intro acc
    show (durFold rs (updateStats acc r.run_duration r.queue_duration)).total_duration_max = _
    rw [ih]
    simp only [updateStats, List.map_cons, List.foldl_cons, update_max_eq]

theorem get_job_stats_eq (fullmatch : String → String → Bool) (job_name : String)
    (runner : Runner) (records : List JobRecord) :
    get_job_stats fullmatch job_name runner records
      = finalizeStats (durFold (acceptedRecords fullmatch job_name runner records) initialStats) := by
  rw [get_job_stats, foldl_statsStep_eq]

theorem sum_map_split (l : List JobRecord) :
    (l.map fun r => r.run_duration + r.queue_duration).sum
      = (l.map JobRecord.run_duration).sum + (l.map JobRecord.queue_duration).sum := by
  induction l with
  | nil => simp
  | cons r rs ih =>
    simp [ih]
    ring

theorem match_runner_ok {fullmatch : String → String → Bool} {s d : String}
    {rn : Runner} {t : Int} (hp : parseIso s = some t) :
    match_runner fullmatch s d rn = .ok (matchRunnerAt fullmatch t d rn) := by
  by_cases h1 : nameCheckFails fullmatch d rn.matcher_name
  · simp [match_runner, matchRunnerAt, h1]
  · by_cases h2 : fromCheckFails t rn.matcher_from
    · simp [match_runner, matchRunnerAt, h1, h2, hp]
    · by_cases h3 : toCheckFails t rn.matcher_to
      · simp [match_runner, matchRunnerAt, h1, h2, h3, hp]
      · simp [match_runner, matchRunnerAt, h1, h2, h3, hp]

theorem scanRows_no_accept (fullmatch : String → String → Bool) (job_name : String)
    (runner : Runner) :
    ∀ (rows : List (List String)) (acc : StatsAcc),
      (∀ row ∈ rows, wellFormedRow row) →
      (∀ row ∈ rows, row.getD 1 "" = job_name →
        ∀ t, parseIso (row.getD 0 "") = some t →
          matchRunnerAt fullmatch t (row.getD 5 "") runner = false) →
      scanRows fullmatch job_name runner rows acc = .ok acc := by
  intro rows
  induction rows with
  | nil => intro acc _ _; rfl
  | cons row rest ih =>
    intro acc hwf hna
    obtain ⟨hlen, h3, h4, h0⟩ := hwf row (List.mem_cons_self _ _)
    rcases Option.isSome_iff_exists.1 h3 with ⟨d3, hd3⟩
    rcases Option.isSome_iff_exists.1 h4 with ⟨d4, hd4⟩
    rcases Option.isSome_iff_exists.1 h0 with ⟨t0, ht0⟩
    have hrec := ih acc (fun r hr => hwf r (List.mem_cons_of_mem _ hr))
      (fun r hr => hna r (List.mem_cons_of_mem _ hr))
    by_cases hname : row.getD 1 "" = job_name
    · have hmr : match_runner fullmatch (row.getD 0 "") (row.getD 5 "") runner
          = .ok false := by
        rw [match_runner_ok ht0, hna row (List.mem_cons_self _ _) hname t0 ht0]
      simp only [List.getD_eq_getElem?_getD] at hd3 hd4 hname hmr
      simp [scanRows, Nat.not_lt.2 hlen, hd3, hd4, hname, hmr, hrec]
    · simp only [List.getD_eq_getElem?_getD] at hd3 hd4 hname
      simp [scanRows, Nat.not_lt.2 hlen, hd3, hd4, hname, hrec]

theorem scanRows_error (fullmatch : String → String → Bool) (job_name : String)
    (runner : Runner) :
    ∀ (rows : List (List String)) (acc : StatsAcc), (∃ row ∈ rows, malformedRow row) →
      ∃ e, scanRows fullmatch job_name runner rows acc = .error e := by
  intro rows
  induction rows with
  | nil =>
    intro acc h
    rcases h with ⟨row, hmem, _⟩
    cases hmem
  | cons row rest ih =>
    intro acc h
    by_cases hlen : row.length < 8
    · exact ⟨"list index out of range", by simp [scanRows, hlen]⟩
    · cases h3 : parseRat (row.getD 3 "") with
      | none =>
        refine ⟨"could not convert string to float", ?_⟩
        simp only [List.getD_eq_getElem?_getD] at h3
        simp [scanRows, hlen, h3]
      | some d3 =>
        cases h4 : parseRat (row.getD 4 "") with
        | none =>
          refine ⟨"could not convert string to float", ?_⟩
          simp only [List.getD_eq_getElem?_getD] at h3 h4
          simp [scanRows, hlen, h3, h4]
        | some d4 =>
          have hrest : ∃ r ∈ rest, malformedRow r := by
            rcases h with ⟨row0, hmem, hmal⟩
            rcases List.mem_cons.1 hmem with rfl | hmem
            · exfalso
              rcases hmal with hm | hm | hm
              · exact hlen hm
              · rw [h3] at hm; cases hm
              · rw [h4] at hm; cases hm
            · exact ⟨row0, hmem, hmal⟩
          by_cases hname : row.getD 1 "" = job_name
          · cases hmr : match_runner fullmatch (row.getD 0 "") (row.getD 5 "") runner with
            | error e =>
              refine ⟨e, ?_⟩
              simp only [List.getD_eq_getElem?_getD] at h3 h4 hname hmr
              simp [scanRows, hlen, h3, h4, hname, hmr]
            | ok b =>
              cases b with
              | true =>
                rcases ih (updateStats acc d3 d4) hrest with ⟨e, he⟩
                refine ⟨e, ?_⟩
                simp only [List.getD_eq_getElem?_getD] at h3 h4 hname hmr
                simp [scanRows, hlen, h3, h4, hname, hmr, he]
              | false =>
                rcases ih acc hrest with ⟨e, he⟩
                refine ⟨e, ?_⟩
                simp only [List.getD_eq_getElem?_getD] at h3 h4 hname hmr
                simp [scanRows, hlen, h3, h4, hname, hmr, he]
          · rcases ih acc hrest with ⟨e, he⟩
            refine ⟨e, ?_⟩
            simp only [List.getD_eq_getElem?_getD] at h3 h4 hname
            simp [scanRows, hlen, h3, h4, hname, he]

/-- Claim C1, counterexample.  A remote successful job that satisfies both the
since-date bound (`created_at = 5 ≥ 0`) and the latest-known bound (the store
is empty) but carries no runner metadata is dropped by the fetch: nothing at
all is written, so the claim that no qualifying remote record is dropped is
false as stated. -/
theorem c1_fetch_cutoff_counterexample :
    (0 : Int) ≤ noRunnerJob.created_at ∧ latestKnown [] = none ∧
      fetch_jobs_data 0 [[noRunnerJob]] [] = [] := by
  refine ⟨by decide, rfl, rfl⟩

/-- Claim C1, amended.  For a fetch with cutoff date `D` against a store whose
newest timestamp is `latestKnown store`: every newly written record has
`created_at ≥ D` and, when a latest-known timestamp exists, `created_at`
strictly greater than it; and — assuming the remote pages are in strictly
descending `created_at` order and no empty page precedes a non-empty one —
every remote successful record that satisfies both bounds AND carries runner
metadata is written. -/
theorem c1_fetch_cutoff_amended (cutoff_date : Int) (pages : List (List RemoteJob))
    (store : List JobRecord)
    (hdesc : pages.flatten.Pairwise fun a b => b.created_at < a.created_at)
    (hemp : pages.Pairwise fun a b => a = [] → b = []) :
    (∀ r ∈ fetch_pages cutoff_date (latestKnown store) pages,
        cutoff_date ≤ r.created_at ∧
        ∀ L, latestKnown store = some L → L < r.created_at) ∧
    (∀ j ∈ pages.flatten, ∀ rec, recordOfJob j = some rec →
        cutoff_date ≤ j.created_at →
        (∀ L, latestKnown store = some L → L < j.created_at) →
        rec ∈ fetch_pages cutoff_date (latestKnown store) pages) := by
  constructor
  · intro r hr
    rcases fetch_pages_sound hr with ⟨j, _, hjr, hjp⟩
    rcases passes_iff.1 hjp with ⟨h1, h2⟩
    rw [recordOfJob_created hjr]
    exact ⟨h1, h2⟩
  · intro j hj rec hrec h1 h2
    exact fetch_pages_complete hdesc hemp hj hrec (passes_iff.2 ⟨h1, h2⟩)

/-- Claim C1, witness: instantiating the amended theorem at a one-page remote
listing with a single qualifying job that has runner metadata shows the job's
row is written. -/
theorem c1_fetch_cutoff_witness :
    goodRec ∈ fetch_pages 0 (latestKnown []) [[goodJob]] :=
  (c1_fetch_cutoff_amended 0 [[goodJob]] [] (by simp) (by simp)).2
    goodJob (by simp) goodRec rfl (by decide)
    (by intro L hL; simp [latestKnown] at hL)

/-- Claim C2.  If the store is non-increasing by `created_at` (newest first)
and the remote pages are listed in descending `created_at` order, then the
store produced by a fetch-and-merge is again non-increasing by `created_at`;
by induction this holds after every merge of any such sequence. -/
theorem c2_ordering_invariant (cutoff_date : Int) (pages : List (List RemoteJob))
    (store : List JobRecord) (hs : storeOrdered store)
    (hp : pages.flatten.Pairwise fun a b => b.created_at ≤ a.created_at) :
    storeOrdered (fetch_jobs_data cutoff_date pages store) := by
  unfold fetch_jobs_data storeOrdered
  rw [List.pairwise_append]
  refine ⟨?_, hs, ?_⟩
  · have hfm : (pages.flatten.filterMap recordOfJob).Pairwise
        (fun a b : JobRecord => b.created_at ≤ a.created_at) := by
      refine List.Pairwise.filterMap recordOfJob ?_ hp
      intro a b hab x hx y hy
      rw [recordOfJob_created (Option.mem_def.1 hx), recordOfJob_created (Option.mem_def.1 hy)]
      exact hab
    exact List.Pairwise.sublist (fetch_pages_sublist _ _ _) hfm
  · intro r hr s hsmem
    cases store with
    | nil => cases hsmem
    | cons first rest =>
      rcases fetch_pages_sound hr with ⟨j, _, hjr, hjp⟩
      have hlt : first.created_at < j.created_at :=
        (passes_iff.1 hjp).2 first.created_at rfl
      have hle : s.created_at ≤ first.created_at := ordered_le_head hs hsmem
      rw [recordOfJob_created hjr]
      exact le_of_lt (lt_of_le_of_lt hle hlt)

/-- Claim C2, witness: a one-record ordered store merged with a one-page
descending remote listing stays ordered. -/
theorem c2_ordering_invariant_witness :
    storeOrdered (fetch_jobs_data 0 [[goodJob]] [oldRec]) :=
  c2_ordering_invariant 0 [[goodJob]] [oldRec] (by simp [storeOrdered]) (by simp)

/-- Claim C3.  For a non-empty store, when every job the remote API returns is
not newer than the store's newest timestamp, a fetch-and-merge leaves the
store exactly unchanged (same records, same count, same order). -/
theorem c3_idempotent_fetch (cutoff_date : Int) (pages : List (List RemoteJob))
    (first : JobRecord) (rest : List JobRecord)
    (h : ∀ j ∈ pages.flatten, j.created_at ≤ first.created_at) :
    fetch_jobs_data cutoff_date pages (first :: rest) = first :: rest := by
  have hlk : latestKnown (first :: rest) = some first.created_at := rfl
  suffices hfp : fetch_pages cutoff_date (some first.created_at) pages = [] by
    rw [fetch_jobs_data, hlk, hfp]
    rfl
  cases pages with
  | nil => rfl
  | cons batch rest' =>
    cases batch with
    | nil => rfl
    | cons j js =>
      have hj : j.created_at ≤ first.created_at := h j (by simp)
      have hl : latestHit (some first.created_at) j.created_at = true := by
        simp [latestHit, hj]
      by_cases hc : j.created_at < cutoff_date
      · simp [fetch_pages, scanPage, hc]
      · simp [fetch_pages, scanPage, hc, hl]

/-- Claim C3, witness: refetching when the remote returns only a job not newer
than the stored head leaves the one-record store unchanged. -/
theorem c3_idempotent_fetch_witness :
    fetch_jobs_data 0 [[oldJob]] [oldRec] = [oldRec] :=
  c3_idempotent_fetch 0 [[oldJob]] oldRec []
    (by intro j hj; simp at hj; subst hj; decide)

/-- Claim C4.  On the crafted three-record store for job `build` with
(run, queue) durations (10, 2), (20, 3), (30, 1), all accepted by an
all-unset matcher, the aggregation returns count 3, runtime avg 20, min 10,
max 30, queue avg 2, min 1, max 3, and total avg 22, min 12, max 31. -/
theorem c4_aggregation_concrete :
    get_job_stats_rows reFullmatchLiteral "build" allRunner c4rows =
      .ok { runtime_duration_avg := 20, runtime_duration_min := 10, runtime_duration_max := 30,
            queue_duration_avg := 2, queue_duration_min := 1, queue_duration_max := 3,
            total_duration_avg := 22, total_duration_min := 12, total_duration_max := 31,
            no_of_jobs := 3 } := by
  norm_num +decide [get_job_stats_rows, Except.map, scanRows, c4rows, parseRat, parseDecimal,
    splitDot, digitsOf, digitVal, digitsVal, parseIso, match_runner, nameCheckFails,
    fromCheckFails, toCheckFails, allRunner, updateStats, initialStats, finalizeStats,
    reFullmatchLiteral]

/-- Claim C5, counterexample.  A store holding a single accepted `build`
record with run duration 20000000 (above the `10000000.0` sentinel that
initializes the running minima) makes `get_job_stats` report a runtime
minimum of 10000000 — not the true minimum 20000000 of the accepted records —
so the claim is false as stated. -/
theorem c5_minmax_counterexample :
    acceptedRecords reFullmatchLiteral "build" allRunner [bigRec] = [bigRec] ∧
    bigRec.run_duration = 20000000 ∧
    (get_job_stats reFullmatchLiteral "build" allRunner [bigRec]).runtime_duration_min
      = 10000000 ∧
    (10000000 : ℚ) ≠ 20000000 := by
  refine ⟨by decide, rfl, ?_, by norm_num⟩
  norm_num [get_job_stats, statsStep, matchRunnerAt, nameCheckFails, fromCheckFails,
    toCheckFails, allRunner, bigRec, updateStats, initialStats, finalizeStats]

/-- Claim C5, amended.  For a non-empty accepted subset, each average equals
the exact sum over accepted records divided by the count, and each reported
minimum (respectively maximum) is the true minimum clamped above by the
10000000 sentinel (respectively the true maximum clamped below by 0), for the
three families runtime, queue and total = runtime + queue. -/
theorem c5_minmax_amended (fullmatch : String → String → Bool) (job_name : String)
    (runner : Runner) (records : List JobRecord) (r : JobRecord) (rs : List JobRecord)
    (h : acceptedRecords fullmatch job_name runner records = r :: rs) :
    (get_job_stats fullmatch job_name runner records).no_of_jobs = rs.length + 1 ∧
    (get_job_stats fullmatch job_name runner records).runtime_duration_avg
      = (r.run_duration + (rs.map JobRecord.run_duration).sum) / ((rs.length + 1 : Nat) : ℚ) ∧
    (get_job_stats fullmatch job_name runner records).runtime_duration_min
      = min 10000000 ((rs.map JobRecord.run_duration).foldl min r.run_duration) ∧
    (get_job_stats fullmatch job_name runner records).runtime_duration_max
      = max 0 ((rs.map JobRecord.run_duration).foldl max r.run_duration) ∧
    (get_job_stats fullmatch job_name runner records).queue_duration_avg
      = (r.queue_duration + (rs.map JobRecord.queue_duration).sum) / ((rs.length + 1 : Nat) : ℚ) ∧
    (get_job_stats fullmatch job_name runner records).queue_duration_min
      = min 10000000 ((rs.map JobRecord.queue_duration).foldl min r.queue_duration) ∧
    (get_job_stats fullmatch job_name runner records).queue_duration_max
      = max 0 ((rs.map JobRecord.queue_duration).foldl max r.queue_duration) ∧
    (get_job_stats fullmatch job_name runner records).total_duration_avg
      = (r.run_duration + r.queue_duration
          + (rs.map fun x => x.run_duration + x.queue_duration).sum) / ((rs.length + 1 : Nat) : ℚ) ∧
    (get_job_stats fullmatch job_name runner records).total_duration_min
      = min 10000000 ((rs.map fun x => x.run_duration + x.queue_duration).foldl min
          (r.run_duration + r.queue_duration)) ∧
    (get_job_stats fullmatch job_name runner records).total_duration_max
      = max 0 ((rs.map fun x => x.run_duration + x.queue_duration).foldl max
          (r.run_duration + r.queue_duration)) := by
  have hstats : get_job_stats fullmatch job_name runner records
      = finalizeStats (durFold (r :: rs) initialStats) := by
    rw [get_job_stats_eq, h]
  have hn : (durFold (r :: rs) initialStats).no_of_jobs = rs.length + 1 := by
    rw [durFold_count]
    simp [initialStats]
  have hne : (durFold (r :: rs) initialStats).no_of_jobs ≠ 0 := by
    rw [hn]
    omega
  rw [hstats]
  simp only [finalizeStats, if_neg hne]
  refine ⟨hn, ?_, ?_, ?_, ?_, ?_, ?_, ?_, ?_, ?_⟩
  · rw [durFold_run_sum, hn]
    simp [initialStats]
  · rw [durFold_run_min]
    simp only [initialStats, List.map_cons, List.foldl_cons]
    exact foldl_min_init _ _ _
  · rw [durFold_run_max]
    simp only [initialStats, List.map_cons, List.foldl_cons]
    exact foldl_max_init _ _ _
  · rw [durFold_queue_sum, hn]
    simp [initialStats]
  · rw [durFold_queue_min]
    simp only [initialStats, List.map_cons, List.foldl_cons]
    exact foldl_min_init _ _ _
  · rw [durFold_queue_max]
    simp only [initialStats, List.map_cons, List.foldl_cons]
    exact foldl_max_init _ _ _
  · rw [durFold_total_sum, hn]
    simp [initialStats]
  · rw [durFold_totdur_min]
    simp only [initialStats, List.map_cons, List.foldl_cons]
    exact foldl_min_init _ _ _
  · rw [durFold_totdur_max]
    simp only [initialStats, List.map_cons, List.foldl_cons]
    exact foldl_max_init _ _ _

/-- Claim C5, witness: the amended theorem applied at the one-record store
whose run duration exceeds the sentinel — the count is 1 and the reported
runtime minimum is the clamped value. -/
theorem c5_minmax_witness :
    (get_job_stats reFullmatchLiteral "build" allRunner [bigRec]).no_of_jobs
        = ([] : List JobRecord).length + 1 ∧
      (get_job_stats reFullmatchLiteral "build" allRunner [bigRec]).runtime_duration_min
        = min 10000000 ((([] : List JobRecord).map JobRecord.run_duration).foldl min
            bigRec.run_duration) :=
  ⟨(c5_minmax_amended reFullmatchLiteral "build" allRunner [bigRec] bigRec [] (by decide)).1,
   (c5_minmax_amended reFullmatchLiteral "build" allRunner [bigRec] bigRec [] (by decide)).2.2.1⟩

/-- Claim C6.  On a store all of whose rows are well formed, a (job name,
matcher) pair that accepts no record makes the aggregation return count 0 and
0.0 for all nine average/min/max fields, without failing. -/
theorem c6_empty_match (fullmatch : String → String → Bool) (job_name : String)
    (runner : Runner) (rows : List (List String))
    (hwf : ∀ row ∈ rows, wellFormedRow row)
    (hna : ∀ row ∈ rows, row.getD 1 "" = job_name →
      ∀ t, parseIso (row.getD 0 "") = some t →
        matchRunnerAt fullmatch t (row.getD 5 "") runner = false) :
    get_job_stats_rows fullmatch job_name runner rows =
      .ok { runtime_duration_avg := 0, runtime_duration_min := 0, runtime_duration_max := 0,
            queue_duration_avg := 0, queue_duration_min := 0, queue_duration_max := 0,
            total_duration_avg := 0, total_duration_min := 0, total_duration_max := 0,
            no_of_jobs := 0 } := by
  rw [get_job_stats_rows, scanRows_no_accept fullmatch job_name runner rows initialStats hwf hna]
  rfl

/-- Claim C6, witness: the crafted store queried for a job name it does not
contain yields the all-zero statistics. -/
theorem c6_empty_match_witness :
    get_job_stats_rows reFullmatchLiteral "deploy" allRunner c4rows =
      .ok { runtime_duration_avg := 0, runtime_duration_min := 0, runtime_duration_max := 0,
            queue_duration_avg := 0, queue_duration_min := 0, queue_duration_max := 0,
            total_duration_avg := 0, total_duration_min := 0, total_duration_max := 0,
            no_of_jobs := 0 } :=
  c6_empty_match reFullmatchLiteral "deploy" allRunner c4rows (by decide)
    (by intro row hrow hname; simp [c4rows] at hrow
        rcases hrow with rfl | rfl | rfl <;> simp at hname)

/-- Claim C7, counterexample.  The spec-worded acceptance predicate demands a
set `name_pattern` to fully match, but a present-yet-empty pattern string is
falsy in Python, so `match_runner` skips the name check and accepts a record
whose description the empty pattern does not match: the stated equivalence is
false. -/
theorem c7_matcher_counterexample :
    ¬ (matchRunnerAt reFullmatchLiteral 0 "a" emptyPatRunner = true ↔
        matcherAcceptsSpec reFullmatchLiteral 0 "a" emptyPatRunner) := by
  intro hiff
  have hm : matchRunnerAt reFullmatchLiteral 0 "a" emptyPatRunner = true := rfl
  have hspec := (hiff.1 hm).1 "" rfl
  simp [reFullmatchLiteral] at hspec

/-- Claim C7, amended.  The matcher accepts a record exactly when
(`name_pattern` is unset or empty, or fully matches the runner description)
and (`from` is unset or `created_at ≥ from`) and (`to` is unset or
`created_at ≤ to`); bounds are inclusive and an all-unset matcher accepts
everything. -/
theorem c7_matcher_amended (fullmatch : String → String → Bool) (t : Int)
    (desc : String) (rn : Runner) :
    matchRunnerAt fullmatch t desc rn = true ↔
      (∀ p, rn.matcher_name = some p → p = "" ∨ fullmatch p desc = true) ∧
      (∀ f, rn.matcher_from = some f → f ≤ t) ∧
      (∀ u, rn.matcher_to = some u → t ≤ u) := by
  obtain ⟨nm, mn, mf, mt⟩ := rn
  cases mn <;> cases mf <;> cases mt <;>
    simp [matchRunnerAt, nameCheckFails, fromCheckFails, toCheckFails, not_lt]

/-- Claim C8.  A merge writes the newly fetched records first and then the
entire previous store content verbatim: the result is exactly the new records
followed by the old ones, and the old store is an unchanged suffix — no
stored row is rewritten, reordered or dropped. -/
theorem c8_merge_frame (cutoff_date : Int) (pages : List (List RemoteJob))
    (store : List JobRecord) :
    fetch_jobs_data cutoff_date pages store
        = fetch_pages cutoff_date (latestKnown store) pages ++ store ∧
      store.IsSuffix (fetch_jobs_data cutoff_date pages store) :=
  ⟨rfl, List.suffix_append _ _⟩

/-- Claim C9, counterexample.  A store with one well-formed row followed by a
row whose run-duration field is not numeric makes `get_job_stats` abort with
an error instead of skipping the malformed row and aggregating the
well-formed one, so the claim is false as stated. -/
theorem c9_malformed_counterexample :
    get_job_stats_rows reFullmatchLiteral "build" allRunner badRows
      = .error "could not convert string to float" := by
  norm_num +decide [get_job_stats_rows, Except.map, scanRows, badRows, parseRat, parseDecimal,
    splitDot, digitsOf, digitVal, digitsVal, parseIso, match_runner, nameCheckFails,
    fromCheckFails, toCheckFails, allRunner, updateStats, initialStats, finalizeStats,
    reFullmatchLiteral]

/-- Claim C9, amended.  A malformed row (too few columns or a non-numeric
duration field) is not skipped: any store containing one makes the
aggregation's full scan abort with an error. -/
theorem c9_malformed_amended (fullmatch : String → String → Bool) (job_name : String)
    (runner : Runner) (rows : List (List String))
    (h : ∃ row ∈ rows, malformedRow row) :
    ∃ e, get_job_stats_rows fullmatch job_name runner rows = .error e := by
  rcases scanRows_error fullmatch job_name runner rows initialStats h with ⟨e, he⟩
  refine ⟨e, ?_⟩
  rw [get_job_stats_rows, he]
  rfl

/-- Claim C9, witness: the amended theorem applied to the store whose second
row has the non-numeric duration field. -/
theorem c9_malformed_witness :
    ∃ e, get_job_stats_rows reFullmatchLiteral "build" allRunner badRows = .error e :=
  c9_malformed_amended reFullmatchLiteral "build" allRunner badRows
    ⟨["200", "build", "success", "xx", "2", "d1", "ip", "ty", "", "u"],
      by simp [badRows], Or.inr (Or.inl rfl)⟩

/-- Claim C10.  When at least one record is accepted, the reported total
duration average equals the runtime average plus the queue average exactly,
because the per-record total is the sum of the two components and the sums
divide by the same count. -/
theorem c10_total_avg (fullmatch : String → String → Bool) (job_name : String)
    (runner : Runner) (records : List JobRecord)
    (h : acceptedRecords fullmatch job_name runner records ≠ []) :
    (get_job_stats fullmatch job_name runner records).total_duration_avg
      = (get_job_stats fullmatch job_name runner records).runtime_duration_avg
        + (get_job_stats fullmatch job_name runner records).queue_duration_avg := by
  rw [get_job_stats_eq]
  have hn : (durFold (acceptedRecords fullmatch job_name runner records) initialStats).no_of_jobs
      = (acceptedRecords fullmatch job_name runner records).length := by
    rw [durFold_count]
    simp [initialStats]
  have hne : (durFold (acceptedRecords fullmatch job_name runner records)
      initialStats).no_of_jobs ≠ 0 := by
    rw [hn]
    simpa [List.length_eq_zero] using h
  simp only [finalizeStats, if_neg hne]
  rw [durFold_total_sum, durFold_run_sum, durFold_queue_sum, sum_map_split]
  simp only [initialStats, zero_add]
  rw [add_div]

/-- Claim C10, witness: on the one-record store, the total average is the sum
of the runtime and queue averages. -/
theorem c10_total_avg_witness :
    (get_job_stats reFullmatchLiteral "build" allRunner [bigRec]).total_duration_avg
      = (get_job_stats reFullmatchLiteral "build" allRunner [bigRec]).runtime_duration_avg
        + (get_job_stats reFullmatchLiteral "build" allRunner [bigRec]).queue_duration_avg :=
  c10_total_avg reFullmatchLiteral "build" allRunner [bigRec] (by decide)

end CompareRunners
